import Mathlib

/-!
Verification of `trunc_repr` from `src/sharrow/debug.py`.

The Python source is a single function:

  def trunc_repr(thing, n=160):
      f = n//2
      a = repr(thing)
      if len(a) < n+20:
          return a
      return a[:f] + "..." +  a[-f:]

Embedding choices: Python strings are sequences of Unicode code points,
modelled as `List Char`; Python integers are `Int`; Python floor division
`//` is `Int.fdiv`; Python slicing, with its negative-index and clamping
semantics, is modelled by `pySliceTo` (for `a[:j]`) and `pySliceFrom`
(for `a[i:]`).  The builtin `repr` is an opaque host facility that
`trunc_repr` calls but the repository does not define, so `trunc_repr`
is parameterised by a representation function `reprF : α → PyStr`;
`pyRepr` below models the host facility on strings, and `trunc_reprE`
models the fallible call where the representation hook may raise.
-/

/-- Python strings, modelled as sequences of Unicode code points. -/
abbrev PyStr : Type := List Char

/-- The three-character ellipsis spliced between the two kept halves. -/
def ellipsis : PyStr := ['.', '.', '.']

/-- Python slice `a[:j]`: for `j >= 0` the first `j` code points (clamped
to the whole string when `j` exceeds the length); for `j < 0` everything
but the last `|j|` code points (clamped to empty). -/
def pySliceTo (a : PyStr) (j : Int) : PyStr :=
  if 0 ≤ j then a.take j.toNat else a.take (a.length - (-j).toNat)

/-- Python slice `a[i:]`: for `i >= 0` everything but the first `i` code
points (clamped to empty); for `i < 0` the last `|i|` code points
(clamped to the whole string). -/
def pySliceFrom (a : PyStr) (i : Int) : PyStr :=
  if 0 ≤ i then a.drop i.toNat else a.drop (a.length - (-i).toNat)

/-- Embedding of `trunc_repr` from `src/sharrow/debug.py`, parameterised
by the host representation facility `reprF` (Python `repr`).  The default
`n = 160` matches the source's default argument. -/
def trunc_repr {α : Type} (reprF : α → PyStr) (thing : α) (n : Int := 160) : PyStr :=
  let f := Int.fdiv n 2
  let a := reprF thing
  if (a.length : Int) < n + 20 then a
  else pySliceTo a f ++ ellipsis ++ pySliceFrom a (-f)

/-- Embedding of `trunc_repr` when the representation hook may fail: the
source calls `repr(thing)` with no `try`/`except`, so a failure in the
hook escapes before any truncation happens. -/
def trunc_reprE {α ε : Type} (reprF : α → Except ε PyStr) (thing : α) (n : Int := 160) :
    Except ε PyStr :=
  let f := Int.fdiv n 2
  match reprF thing with
  | Except.error e => Except.error e
  | Except.ok a =>
      if (a.length : Int) < n + 20 then Except.ok a
      else Except.ok (pySliceTo a f ++ ellipsis ++ pySliceFrom a (-f))

/-- The single-quote character. -/
def squote : Char := Char.ofNat 39

/-- The double-quote character. -/
def dquote : Char := Char.ofNat 34

/-- The backslash character. -/
def bslash : Char := Char.ofNat 92

/-- Lower-case hexadecimal digit for a value below 16. -/
def hexDigit (k : Nat) : Char :=
  if k < 10 then Char.ofNat (48 + k) else Char.ofNat (87 + k)

/-- Modelled from the spec: the quote character the host textual
representation picks for a string.  Python prefers single quotes and
switches to double quotes exactly when the string contains a single
quote but no double quote. -/
def pyReprQuote (s : PyStr) : Char :=
  if s.contains squote && !(s.contains dquote) then dquote else squote

/-- Modelled from the spec: how the host textual representation renders
one code point inside the quoted literal, escaping the backslash, the
chosen quote and ASCII control characters; other code points pass
through unchanged. -/
def pyEscapeChar (q : Char) (c : Char) : PyStr :=
  if c = bslash ∨ c = q then [bslash, c]
  else if c = Char.ofNat 10 then [bslash, 'n']
  else if c = Char.ofNat 13 then [bslash, 'r']
  else if c = Char.ofNat 9 then [bslash, 't']
  else if c.toNat < 32 ∨ c.toNat = 127 then
    [bslash, 'x', hexDigit (c.toNat / 16), hexDigit (c.toNat % 16)]
  else [c]

/-- Modelled from the spec: the host textual-representation facility
(Python `repr`) on strings, which `src/sharrow/debug.py` calls but does
not define: the string between chosen quotes, each code point escaped. -/
def pyRepr (s : PyStr) : PyStr :=
  let q := pyReprQuote s
  q :: (s.flatMap (pyEscapeChar q)) ++ [q]

/-- Floor division by the positive constant 2 agrees with Euclidean
division by 2, which `omega` understands. -/
theorem fdiv_two_eq (n : Int) : Int.fdiv n 2 = n / 2 :=
  Int.fdiv_eq_ediv n (by norm_num)

/-- When the representation is under the threshold, `trunc_repr` returns
it unchanged. -/
theorem trunc_repr_short_case {α : Type} (reprF : α → PyStr) (v : α) (n : Int)
    (h : ((reprF v).length : Int) < n + 20) : trunc_repr reprF v n = reprF v := by
  simp only [trunc_repr]
  rw [if_pos h]

/-- When the representation meets the threshold, `trunc_repr` returns the
two slices around the ellipsis. -/
theorem trunc_repr_long_case {α : Type} (reprF : α → PyStr) (v : α) (n : Int)
    (h : ¬ ((reprF v).length : Int) < n + 20) :
    trunc_repr reprF v n =
      pySliceTo (reprF v) (Int.fdiv n 2) ++ ellipsis ++
        pySliceFrom (reprF v) (-(Int.fdiv n 2)) := by
  simp only [trunc_repr]
  rw [if_neg h]

/-- General shape of the truncated branch when the limit is at least 2:
both slices are genuine half-width slices and the output length is
exactly twice the half-width plus the three ellipsis dots. -/
theorem trunc_repr_of_two_le {α : Type} (reprF : α → PyStr) (v : α) (n : Int)
    (hn : 2 ≤ n) (hL : n + 20 ≤ ((reprF v).length : Int)) :
    trunc_repr reprF v n =
      (reprF v).take ((Int.fdiv n 2).toNat) ++ ellipsis ++
        (reprF v).drop ((reprF v).length - (Int.fdiv n 2).toNat) ∧
    (trunc_repr reprF v n).length = 2 * (Int.fdiv n 2).toNat + 3 := by
  have hf2 : Int.fdiv n 2 = n / 2 := fdiv_two_eq n
  have hstep := trunc_repr_long_case reprF v n (by omega)
  set a := reprF v with ha
  have hfnn : 0 ≤ Int.fdiv n 2 := by rw [hf2]; omega
  have h1 : pySliceTo a (Int.fdiv n 2) = a.take ((Int.fdiv n 2).toNat) := by
    simp only [pySliceTo]
    rw [if_pos hfnn]
  have hfneg : ¬ (0 ≤ -(Int.fdiv n 2)) := by rw [hf2]; omega
  have h2 : pySliceFrom a (-(Int.fdiv n 2)) = a.drop (a.length - (Int.fdiv n 2).toNat) := by
    simp only [pySliceFrom]
    rw [if_neg hfneg]
    congr 1
    omega
  rw [h1, h2] at hstep
  have htake : (Int.fdiv n 2).toNat ≤ a.length := by rw [hf2]; omega
  refine ⟨hstep, ?_⟩
  rw [hstep]
  simp only [List.length_append, List.length_take, List.length_drop, ellipsis,
    List.length_cons, List.length_nil]
  omega

/-- Claim C1 counterexample: at limit 0 (so half-width 0) and a
20-character representation, the code returns the ellipsis followed by
the whole representation, not the empty halves around the ellipsis of
length 3 that the claim predicts. -/
theorem trunc_repr_c1_refuted :
    (0 : Int) ≤ 0 ∧ 0 + 20 ≤ ((List.replicate 20 'a').length : Int) ∧
    ¬ (trunc_repr id (List.replicate 20 'a') 0 =
        (List.replicate 20 'a').take ((Int.fdiv 0 2).toNat) ++ ellipsis ++
          (List.replicate 20 'a').drop
            ((List.replicate 20 'a').length - (Int.fdiv 0 2).toNat) ∧
      (trunc_repr id (List.replicate 20 'a') 0).length =
        2 * (Int.fdiv 0 2).toNat + 3) := by
  decide

/-- Claim C1 (amended: for every limit at least 2 rather than every
non-negative limit): if the representation has length at least
limit + 20, the result is its first limit//2 code points, then the
ellipsis, then its last limit//2 code points, with length exactly
2*(limit//2) + 3. -/
theorem trunc_repr_truncated_shape {α : Type} (reprF : α → PyStr) (v : α) (n : Int)
    (hn : 2 ≤ n) (hL : n + 20 ≤ ((reprF v).length : Int)) :
    trunc_repr reprF v n =
      (reprF v).take ((Int.fdiv n 2).toNat) ++ ellipsis ++
        (reprF v).drop ((reprF v).length - (Int.fdiv n 2).toNat) ∧
    (trunc_repr reprF v n).length = 2 * (Int.fdiv n 2).toNat + 3 :=
  trunc_repr_of_two_le reprF v n hn hL

/-- Witness for the amended claim C1 at limit 10 on a 30-character
representation. -/
theorem trunc_repr_truncated_shape_example :
    trunc_repr id (List.replicate 30 'b') 10 =
      (List.replicate 30 'b').take ((Int.fdiv 10 2).toNat) ++ ellipsis ++
        (List.replicate 30 'b').drop
          ((List.replicate 30 'b').length - (Int.fdiv 10 2).toNat) ∧
    (trunc_repr id (List.replicate 30 'b') 10).length = 2 * (Int.fdiv 10 2).toNat + 3 :=
  trunc_repr_truncated_shape id (List.replicate 30 'b') 10 (by decide) (by decide)

/-- Claim C2: for every non-negative limit, a representation shorter than
limit + 20 is returned completely unchanged. -/
theorem trunc_repr_grace_margin {α : Type} (reprF : α → PyStr) (v : α) (n : Int)
    (_hn : 0 ≤ n) (hL : ((reprF v).length : Int) < n + 20) :
    trunc_repr reprF v n = reprF v :=
  trunc_repr_short_case reprF v n hL

/-- Witness for claim C2 inside the grace margin: length 25 with limit 10
satisfies 10 <= 25 < 30 and is untouched. -/
theorem trunc_repr_grace_margin_example :
    (0 : Int) ≤ 10 ∧ ((List.replicate 25 'c').length : Int) < 10 + 20 ∧
    trunc_repr id (List.replicate 25 'c') 10 = List.replicate 25 'c' :=
  ⟨by decide, by decide, trunc_repr_grace_margin id (List.replicate 25 'c') 10 (by decide) (by decide)⟩

/-- Claim C3 counterexample: for the string value hello with limit 160,
the first result is the 7-character quoted representation, which is well
under the threshold 180, yet re-applying the function does not return it
unchanged: the second call re-quotes it (the representation of a string
is not the string itself). -/
theorem trunc_repr_idempotence_refuted :
    ((trunc_repr pyRepr (['h', 'e', 'l', 'l', 'o'] : PyStr) 160).length : Int) < 160 + 20 ∧
    trunc_repr pyRepr (trunc_repr pyRepr (['h', 'e', 'l', 'l', 'o'] : PyStr) 160) 160 ≠
      trunc_repr pyRepr (['h', 'e', 'l', 'l', 'o'] : PyStr) 160 := by
  decide

/-- Claim C3 (amended: idempotence holds at the level of the
representation string, not of the value): when re-applying acts on the
first result as its own representation (representation function the
identity) and that first result is short, it comes back unchanged; the
claim as stated fails because re-applying to the value recomputes a
quoted representation of the first result. -/
theorem trunc_repr_step_idempotent (a : PyStr) (n : Int)
    (h : ((trunc_repr id a n).length : Int) < n + 20) :
    trunc_repr id (trunc_repr id a n) n = trunc_repr id a n :=
  trunc_repr_short_case id (trunc_repr id a n) n h

/-- Witness for the amended claim C3 on a two-character string at the
default limit. -/
theorem trunc_repr_step_idempotent_example :
    trunc_repr id (trunc_repr id (['h', 'i'] : PyStr) 160) 160 =
      trunc_repr id (['h', 'i'] : PyStr) 160 :=
  trunc_repr_step_idempotent ['h', 'i'] 160 (by decide)

/-- Claim C4: the fallible embedding fails exactly when the
representation hook fails, propagating the same error unchanged, and a
successful representation always yields a successful result for every
limit. -/
theorem trunc_repr_error_propagation {α ε : Type} (reprF : α → Except ε PyStr)
    (v : α) (n : Int) :
    (∀ e, reprF v = Except.error e → trunc_reprE reprF v n = Except.error e) ∧
    (∀ a, reprF v = Except.ok a → ∃ s, trunc_reprE reprF v n = Except.ok s) := by
  constructor
  · intro e he
    simp [trunc_reprE, he]
  · intro a ha
    simp only [trunc_reprE, ha]
    by_cases h : ((a.length : Int) < n + 20)
    · exact ⟨a, by rw [if_pos h]⟩
    · exact ⟨_, by rw [if_neg h]⟩

/-- Witness for claim C4: a hook that raises error 7 makes the call
return exactly error 7. -/
theorem trunc_repr_error_propagation_example :
    trunc_reprE (fun _ : Unit => (Except.error 7 : Except Nat PyStr)) () 160 =
      Except.error 7 :=
  (trunc_repr_error_propagation (fun _ : Unit => (Except.error 7 : Except Nat PyStr)) () 160).1 7 rfl

/-- Claim C5: a 50-character representation with limit 10 meets the
threshold 30 and is truncated to its first 5 code points, the ellipsis,
and its last 5 code points, an output of length exactly 13. -/
theorem trunc_repr_limit10_len50 {α : Type} (reprF : α → PyStr) (v : α)
    (h : (reprF v).length = 50) :
    trunc_repr reprF v 10 =
      (reprF v).take 5 ++ ellipsis ++ (reprF v).drop 45 ∧
    (trunc_repr reprF v 10).length = 13 := by
  have hshape := trunc_repr_of_two_le reprF v 10 (by norm_num) (by rw [h]; norm_num)
  have hf : (Int.fdiv 10 2).toNat = 5 := by decide
  rw [hf, h] at hshape
  exact hshape

/-- Witness for claim C5 on a concrete 50-character representation. -/
theorem trunc_repr_limit10_len50_example :
    trunc_repr id (List.replicate 50 'z') 10 =
      (List.replicate 50 'z').take 5 ++ ellipsis ++ (List.replicate 50 'z').drop 45 ∧
    (trunc_repr id (List.replicate 50 'z') 10).length = 13 :=
  trunc_repr_limit10_len50 id (List.replicate 50 'z') (by decide)

/-- Claim C6: at the default limit 160, the representation of a string of
300 repeated x characters has length 302 (quoted), meets the threshold
180, and the result is the first 80 code points of that representation,
the ellipsis, and its last 80 code points, of length 163. -/
theorem trunc_repr_default_limit_example :
    (pyRepr (List.replicate 300 'x')).length = 302 ∧
    180 ≤ (pyRepr (List.replicate 300 'x')).length ∧
    trunc_repr pyRepr (List.replicate 300 'x') =
      (pyRepr (List.replicate 300 'x')).take 80 ++ ellipsis ++
        (pyRepr (List.replicate 300 'x')).drop 222 ∧
    (trunc_repr pyRepr (List.replicate 300 'x')).length = 163 := by
  set_option maxRecDepth 10000 in decide

/-- Claim C7: the function is deterministic and depends on nothing
outside its arguments: any two calls whose representation functions give
the same representation string for their values, with equal limits,
yield identical outputs — even across different value types. -/
theorem trunc_repr_deterministic {α β : Type} (reprF : α → PyStr) (reprG : β → PyStr)
    (v : α) (w : β) (n m : Int) (hrepr : reprF v = reprG w) (hnm : n = m) :
    trunc_repr reprF v n = trunc_repr reprG w m := by
  subst hnm
  simp only [trunc_repr, hrepr]

/-- Witness for claim C7: two calls on different value types whose
representations agree produce the same output. -/
theorem trunc_repr_deterministic_example :
    trunc_repr id (['a'] : PyStr) 160 = trunc_repr (fun _ : Nat => (['a'] : PyStr)) 0 160 :=
  trunc_repr_deterministic id (fun _ : Nat => (['a'] : PyStr)) ['a'] 0 160 160 rfl rfl

/-- Claim C8: at limit 0 or 1 the half-width is 0, and for a
representation meeting the threshold the result is the ellipsis followed
by the entire representation, of length len + 3: strictly longer than
the untruncated representation. -/
theorem trunc_repr_zero_one_limit {α : Type} (reprF : α → PyStr) (v : α) (n : Int)
    (hn : n = 0 ∨ n = 1) (hL : n + 20 ≤ ((reprF v).length : Int)) :
    trunc_repr reprF v n = ellipsis ++ reprF v ∧
    (trunc_repr reprF v n).length = (reprF v).length + 3 := by
  have hf : Int.fdiv n 2 = 0 := by rcases hn with h | h <;> subst h <;> decide
  have hstep := trunc_repr_long_case reprF v n (by omega)
  rw [hf] at hstep
  have h1 : pySliceTo (reprF v) 0 = [] := by
    simp [pySliceTo]
  have h2 : pySliceFrom (reprF v) (-0) = reprF v := by
    simp [pySliceFrom]
  rw [h1, h2, List.nil_append] at hstep
  refine ⟨hstep, ?_⟩
  rw [hstep]
  simp [ellipsis]

/-- Witness for claim C8 at limit 0 on a 20-character representation. -/
theorem trunc_repr_zero_one_limit_example :
    trunc_repr id (List.replicate 20 'd') 0 = ellipsis ++ List.replicate 20 'd' ∧
    (trunc_repr id (List.replicate 20 'd') 0).length = (List.replicate 20 'd').length + 3 :=
  trunc_repr_zero_one_limit id (List.replicate 20 'd') 0 (Or.inl rfl) (by decide)

/-- Claim C9: for every limit at least 2 the output length stays
strictly below limit + 20 and never exceeds the length of the
representation. -/
theorem trunc_repr_output_bound {α : Type} (reprF : α → PyStr) (v : α) (n : Int)
    (hn : 2 ≤ n) :
    ((trunc_repr reprF v n).length : Int) < n + 20 ∧
    (trunc_repr reprF v n).length ≤ (reprF v).length := by
  by_cases h : ((reprF v).length : Int) < n + 20
  · rw [trunc_repr_short_case reprF v n h]
    exact ⟨h, le_refl _⟩
  · obtain ⟨-, hlen⟩ := trunc_repr_of_two_le reprF v n hn (by omega)
    rw [hlen]
    rw [fdiv_two_eq n] at hlen ⊢
    constructor <;> omega

/-- Witness for claim C9 at limit 2 on a 40-character representation. -/
theorem trunc_repr_output_bound_example :
    ((trunc_repr id (List.replicate 40 'e') 2).length : Int) < 2 + 20 ∧
    (trunc_repr id (List.replicate 40 'e') 2).length ≤ (List.replicate 40 'e').length :=
  trunc_repr_output_bound id (List.replicate 40 'e') 2 (by norm_num)

/-- Claim C10: a negative limit is accepted without error; the
half-width f = n//2 is at most -1, and when the representation meets the
threshold and is at least |f| long, the result is the representation
minus its last |f| code points, the ellipsis, then the representation
minus its first |f| code points, of length 2*(len - |f|) + 3. -/
theorem trunc_repr_negative_limit {α : Type} (reprF : α → PyStr) (v : α) (n : Int)
    (hn : n < 0) (hL : n + 20 ≤ ((reprF v).length : Int))
    (hlen : (Int.fdiv n 2).natAbs ≤ (reprF v).length) :
    Int.fdiv n 2 ≤ -1 ∧
    trunc_repr reprF v n =
      (reprF v).take ((reprF v).length - (Int.fdiv n 2).natAbs) ++ ellipsis ++
        (reprF v).drop ((Int.fdiv n 2).natAbs) ∧
    (trunc_repr reprF v n).length =
      2 * ((reprF v).length - (Int.fdiv n 2).natAbs) + 3 := by
  have hfneg : Int.fdiv n 2 ≤ -1 := by rw [fdiv_two_eq n]; omega
  have hstep := trunc_repr_long_case reprF v n (by omega)
  have h1 : pySliceTo (reprF v) (Int.fdiv n 2) =
      (reprF v).take ((reprF v).length - (Int.fdiv n 2).natAbs) := by
    simp only [pySliceTo]
    rw [if_neg (by omega)]
    congr 1
    omega
  have h2 : pySliceFrom (reprF v) (-(Int.fdiv n 2)) =
      (reprF v).drop ((Int.fdiv n 2).natAbs) := by
    simp only [pySliceFrom]
    rw [if_pos (by omega)]
    congr 1
    omega
  rw [h1, h2] at hstep
  refine ⟨hfneg, hstep, ?_⟩
  rw [hstep]
  simp only [List.length_append, List.length_take, List.length_drop, ellipsis,
    List.length_cons, List.length_nil]
  omega

/-- Witness for claim C10 at limit -2 (half-width -1) on an
18-character representation: seventeen kept on each side around the
ellipsis, output length 37. -/
theorem trunc_repr_negative_limit_example :
    Int.fdiv (-2) 2 ≤ -1 ∧
    trunc_repr id (List.replicate 18 'y') (-2) =
      (List.replicate 18 'y').take ((List.replicate 18 'y').length - (Int.fdiv (-2) 2).natAbs) ++
        ellipsis ++ (List.replicate 18 'y').drop ((Int.fdiv (-2) 2).natAbs) ∧
    (trunc_repr id (List.replicate 18 'y') (-2)).length =
      2 * ((List.replicate 18 'y').length - (Int.fdiv (-2) 2).natAbs) + 3 :=
  trunc_repr_negative_limit id (List.replicate 18 'y') (-2) (by norm_num) (by decide) (by decide)
